import Mathlib

/-!
Verification of the pyrad data-processing flow engine
(`pyrad/flow/flow_control.py`) against its natural-language specification.

The definitions below are a shallow embedding of the source module:
Python insertion-ordered dictionaries become association lists,
the external collaborators (stage transforms, volume fetch, file listing)
become function parameters, and Python exception propagation becomes an
explicit error component threaded through the control skeleton of `main`.
-/

set_option maxHeartbeats 1000000

/-- Lookup in an insertion-ordered association list: Python `d[k]`
(`none` models a `KeyError`) and the membership test `k in d`. -/
def alGet {α : Type} : List (String × α) → String → Option α
  | [], _ => none
  | (k, v) :: rest, key => if k = key then some v else alGet rest key

/-- Python dict write `d[k] = v` / `d.update({k: v})`: an existing key keeps its
position and gets the new value; a new key is appended at the end. -/
def alUpdate {α : Type} : List (String × α) → String → α → List (String × α)
  | [], key, v => [(key, v)]
  | (k, w) :: rest, key, v =>
    if k = key then (k, v) :: rest else (k, w) :: alUpdate rest key v

/-- Python `str.split(sep)` for a one-character separator, on explicit
character lists (structural, so concrete instances evaluate). -/
def splitOnChar (c : Char) : List Char → List (List Char)
  | [] => [[]]
  | x :: xs =>
    let r := splitOnChar c xs
    if x = c then [] :: r
    else
      match r with
      | [] => [[x]]
      | h :: t => (x :: h) :: t

/-- Python `s.split(c)`. -/
def pySplit (s : String) (c : Char) : List String :=
  (splitOnChar c s.data).map String.mk

/-- Modelled from the spec: `get_dataset_fields` (in `pyrad.io.io_aux`, not under
`src/`) parses a stage descriptor `"<level>:<stageName>"` at the colon into
the level token and the stage name. -/
def get_dataset_fields (s : String) : String × String :=
  let parts := pySplit s ':'
  (parts.headD "", parts.getD 1 "")

/-- Level token of a dataset descriptor (e.g. `"l2"` from `"l2:myStage"`). -/
def levelOf (s : String) : String := (get_dataset_fields s).1

/-- Dataset name of a dataset descriptor (e.g. `"myStage"` from `"l2:myStage"`). -/
def nameOf (s : String) : String := (get_dataset_fields s).2

/-- Modelled from the spec: the first component (the data group / category)
returned by `get_datatype_fields` (in `pyrad.io.io_aux`, not under `src/`) on a
datatype descriptor `"<category>:<field>[,<sourceStage>,<sourceProduct>]"`. -/
def datagroupOf (s : String) : String := (pySplit s ':').headD ""

/-- Modelled from the spec: the field component of a datatype descriptor. -/
def datatypeFieldOf (s : String) : String :=
  (pySplit ((pySplit s ':').getD 1 "") ',').headD ""

/-- One iteration of the loop body of `_get_datasets_list`: append the dataset
name to the level's list when the level key exists, otherwise add the key. -/
def addToLevels (d : List (String × List String)) (lev nm : String) :
    List (String × List String) :=
  if (alGet d lev).isSome then
    d.map (fun p => if p.1 = lev then (p.1, p.2 ++ [nm]) else p)
  else d ++ [(lev, [nm])]

/-- The loop body of `_get_datasets_list` applied to one descriptor. -/
def dsStep (acc : List (String × List String)) (descr : String) :
    List (String × List String) :=
  addToLevels acc (levelOf descr) (nameOf descr)

/-- `_get_datasets_list(cfg)`: builds the level-to-datasets dictionary, starting
from `{'l0': []}`, scanning `cfg['dataSetList']` in declaration order. -/
def _get_datasets_list (dataSetList : List String) : List (String × List String) :=
  dataSetList.foldl dsStep [("l0", [])]

/-- Python's `<` on strings: lexicographic comparison of code points. -/
def strLtB : List Char → List Char → Bool
  | [], [] => false
  | [], _ :: _ => true
  | _ :: _, [] => false
  | a :: as, b :: bs =>
    if a.toNat < b.toNat then true
    else if b.toNat < a.toNat then false
    else strLtB as bs

/-- Python string `<`. -/
def pyStrLt (s t : String) : Bool := strLtB s.data t.data

/-- Python string `<=` (total order: `s <= t` iff not `t < s`). -/
def pyStrLe (s t : String) : Bool := !pyStrLt t s

/-- Insert a string into an already ascending list, keeping it ascending. -/
def orderedIns (x : String) : List String → List String
  | [] => [x]
  | y :: ys => if pyStrLe x y then x :: y :: ys else y :: orderedIns x ys

/-- Python `sorted` applied to dictionary keys: ascending lexicographic
(code point) string order, as used by `for level in sorted(dataset_levels)`. -/
def pySorted (l : List String) : List String := l.foldr orderedIns []

/-- The keys of the level dictionary in the order `main` iterates them. -/
def sortedKeys (d : List (String × List String)) : List String :=
  pySorted (d.map Prod.fst)

/-- The order in which one pass of `main` visits the datasets: levels by
`sorted` key order, and within a level the stored (declaration) order. -/
def visitOrder (d : List (String × List String)) : List String :=
  (sortedKeys d).flatMap (fun k => (alGet d k).getD [])

/-- Result of one external transform call (`proc_func` in `_process_dataset`):
the call either raises an exception or returns normally. -/
inductive TResult where
  | raise : TResult
  | done : TResult
deriving DecidableEq

/-- One recorded transform invocation: the `proc_status` passed, the dataset
name, and the volume time (`none` at initialization and final processing). -/
structure Invocation where
  status : Nat
  ds : String
  time : Option Nat
deriving DecidableEq

/-- How a run of `main` can terminate abnormally: the explicit empty-file-list
exception, an uncaught exception from `get_data`, or an uncaught exception
from a transform. -/
inductive RunError where
  | noVolumes : RunError
  | fetchFail : Nat → RunError
  | transformFail : Nat → String → RunError
deriving DecidableEq

/-- One pass of `main` over the datasets in visit order with a fixed
`proc_status`: every transform call made is recorded; there is no
try/except in the source, so a raised exception stops the pass and
propagates. -/
def procPass (proc : Nat → String → Option Nat → TResult) (status : Nat)
    (t : Option Nat) : List String → List Invocation × Option RunError
  | [] => ([], none)
  | d :: ds =>
    match proc status d t with
    | .raise => ([⟨status, d, t⟩], some (.transformFail status d))
    | .done =>
      let r := procPass proc status t ds
      (⟨status, d, t⟩ :: r.1, r.2)

/-- The `for masterfile in masterfilelist` loop of `main`: fetch the volume
(`get_data`) and run the PROCESS pass; a failed fetch or a raised transform
exception propagates uncaught and ends the run. -/
def streamLoop (getData : Nat → Bool) (proc : Nat → String → Option Nat → TResult)
    (order : List String) : List Nat → List Invocation × Option RunError
  | [] => ([], none)
  | t :: ts =>
    if getData t then
      let r := procPass proc 1 (some t) order
      match r.2 with
      | some e => (r.1, some e)
      | none =>
        let r2 := streamLoop getData proc order ts
        (r.1 ++ r2.1, r2.2)
    else ([], some (.fetchFail t))

/-- Control skeleton of `main`: the list of transform invocations it performs
and how it terminates.  `times` is the resolved master file list (each file
reduced to its volume time), `getData` the external volume fetch (`false`
models a raised exception), `proc` the external transforms' behaviour.
Matches the source order: the empty-list check precedes the initialization
pass (status 0), one PROCESS pass (status 1) per master file, and the final
pass (status 2) uses the last volume time. -/
def mainTrace (dataSetList : List String) (times : List Nat)
    (getData : Nat → Bool) (proc : Nat → String → Option Nat → TResult) :
    List Invocation × Option RunError :=
  let order := visitOrder (_get_datasets_list dataSetList)
  match times with
  | [] => ([], some .noVolumes)
  | _ :: _ =>
    let r0 := procPass proc 0 none order
    match r0.2 with
    | some e => (r0.1, some e)
    | none =>
      let r1 := streamLoop getData proc order times
      match r1.2 with
      | some e => (r0.1 ++ r1.1, some e)
      | none =>
        let r2 := procPass proc 2 times.getLast? order
        (r0.1 ++ r1.1 ++ r2.1, r2.2)

/-- The four data groups treated as auxiliary references by
`_get_masterfile_list`. -/
def isAuxGroup (g : String) : Bool :=
  g = "COSMO" || g = "RAD4ALPCOSMO" || g = "DEM" || g = "RAD4ALPDEM"

/-- The family default descriptor used by the fallback loop of
`_get_masterfile_list` for each auxiliary data group. -/
def fallbackDescr (g : String) : Option String :=
  if g = "COSMO" then some "RAINBOW:dBZ"
  else if g = "RAD4ALPCOSMO" then some "RAD4ALP:dBZ"
  else if g = "DEM" then some "RAINBOW:dBZ"
  else if g = "RAD4ALPDEM" then some "RAD4ALP:dBZ"
  else none

/-- First loop of `_get_masterfile_list`: the first descriptor whose data group
is none of the four auxiliary groups. -/
def masterSelectFirst : List String → Option String
  | [] => none
  | d :: ds => if isAuxGroup (datagroupOf d) then masterSelectFirst ds else some d

/-- Second loop of `_get_masterfile_list`: scan for the first descriptor whose
group matches one of the four auxiliary cases and return that family's
default descriptor. -/
def masterSelectFallback : List String → Option String
  | [] => none
  | d :: ds =>
    match fallbackDescr (datagroupOf d) with
    | some m => some m
    | none => masterSelectFallback ds

/-- The master data type descriptor as resolved by `_get_masterfile_list`;
`none` means both loops fell through (the source then passes `None` on). -/
def masterSelect (descrs : List String) : Option String :=
  match masterSelectFirst descrs with
  | some m => some m
  | none => masterSelectFallback descrs

/-- `_get_masterfile_list`: resolves the master descriptor and asks the external
`get_file_list` collaborator (a parameter here) for the file list.  The source
performs no error check: an unresolved master descriptor (`none`) is passed to
`get_file_list` unchanged. -/
def _get_masterfile_list (getFileList : Option String → List String)
    (descrs : List String) : List String × Option String :=
  let m := masterSelect descrs
  (getFileList m, m)

/-- Python `set.add` on an insertion-ordered duplicate-free list (the final
`list(set)` order in the source is interpreter-defined; the claims are about
the contents). -/
def setAdd (s : List String) (x : String) : List String :=
  if x ∈ s then s else s ++ [x]

/-- Inner loop of `_get_datatype_list`: add every declared datatype descriptor
whose data group is not `'PROC'`. -/
def addTypes (acc : List String) (dts : List String) : List String :=
  dts.foldl (fun a dt => if datagroupOf dt ≠ "PROC" then setAdd a dt else a) acc

/-- `_get_datatype_list(cfg)`: the unique external datatype descriptors across
all declared datasets.  `datatypeOf` models the `'datatype'` entry of
`cfg[dataset]` (`none` when the key is absent; the single-string case of the
source is the singleton list). -/
def _get_datatype_list (dataSetList : List String)
    (datatypeOf : String → Option (List String)) : List String :=
  dataSetList.foldl (fun acc descr =>
    match datatypeOf (nameOf descr) with
    | none => acc
    | some dts => addTypes acc dts) []

/-- A Python configuration value: string, integer, `None`, or nested dict. -/
inductive Val where
  | vstr : String → Val
  | vint : Int → Val
  | vnone : Val
  | vdict : List (String × Val) → Val

/-- A Python dictionary of configuration values. -/
abbrev Dict := List (String × Val)

/-- The sequence of `dscfg.update` calls of `_create_dscfg_dict`, applied to the
stage dict `d0 = cfg[dataset]` with the already-read scalar parameter
values, followed by the conditional MAKE_GLOBAL default; returns the pair
(updated run configuration, stage dict). -/
def dscfgBody (cfg : Dict) (dataset : String) (d0 : Dict)
    (cpath sfpath mlh mlv rch rcv agv atv bpath pname : Val) : Dict × Dict :=
  let d1 := alUpdate d0 "configpath" cpath
  let d2 := alUpdate d1 "solarfluxpath" sfpath
  let d3 := alUpdate d2 "mflossh" mlh
  let d4 := alUpdate d3 "mflossv" mlv
  let d5 := alUpdate d4 "radconsth" rch
  let d6 := alUpdate d5 "radconstv" rcv
  let d7 := alUpdate d6 "AntennaGain" agv
  let d8 := alUpdate d7 "attg" atv
  let d9 := alUpdate d8 "basepath" bpath
  let d10 := alUpdate d9 "procname" pname
  let d11 := alUpdate d10 "dsname" (.vstr dataset)
  let d12 := alUpdate d11 "timeinfo" .vnone
  let d13 := alUpdate d12 "initialized" (.vint 0)
  let d14 := alUpdate d13 "global_data" .vnone
  let d15 :=
    if (alGet d14 "MAKE_GLOBAL").isSome then d14
    else alUpdate d14 "MAKE_GLOBAL" (.vint 0)
  (alUpdate cfg dataset (.vdict d15), d15)

/-- `_create_dscfg_dict(cfg, dataset)`: builds the dataset configuration.
In the source `dscfg = cfg[dataset]` is an alias, and every `dscfg.update`
mutates the dict stored in `cfg`; the embedding returns both the updated run
configuration (with the enriched stage dict written back at `dataset`) and
the stage dict itself.  The scalar parameter keys are read from the run
configuration (the source mutates only the entry at `dataset`); a missing
key (Python `KeyError`), or a non-dict entry at `dataset` (Python
`AttributeError` on `update`), is modelled as `none`. -/
def _create_dscfg_dict (cfg : Dict) (dataset : String) : Option (Dict × Dict) :=
  match alGet cfg dataset, alGet cfg "configpath", alGet cfg "solarfluxpath",
      alGet cfg "mflossh", alGet cfg "mflossv", alGet cfg "radconsth",
      alGet cfg "radconstv", alGet cfg "AntennaGain", alGet cfg "attg",
      alGet cfg "saveimgbasepath", alGet cfg "name" with
  | some (.vdict d0), some cpath, some sfpath, some mlh, some mlv, some rch,
      some rcv, some agv, some atv, some bpath, some pname =>
    some (dscfgBody cfg dataset d0 cpath sfpath mlh mlv rch rcv agv atv bpath pname)
  | _, _, _, _, _, _, _, _, _, _, _ => none

/-- Python truthiness of a configuration value, as tested by
`if not make_global` in `_add_dataset`. -/
def pyTruthy : Val → Bool
  | .vint n => n != 0
  | .vstr s => s ≠ ""
  | .vnone => false
  | .vdict d => !d.isEmpty

/-- The engine's view of a radar object: its named fields (the field data
dicts are opaque to the engine and abstracted to integers). -/
structure RadarObj where
  fields : List (String × Int)
deriving DecidableEq

/-- pyart's `radar.add_field(name, data, replace_existing=True)`: store the
data under the name, overwriting an existing field of that name. -/
def add_field (r : RadarObj) (fname : String) (fdata : Int) : RadarObj :=
  ⟨alUpdate r.fields fname fdata⟩

/-- `_add_dataset(new_dataset, radar, make_global)`: returns `None` untouched
when there is no shared radar volume or `make_global` is falsy; otherwise
adds every field of the new dataset to the shared volume with
`replace_existing=True` and returns `0`.  The pair is (shared volume after
the call, return value). -/
def _add_dataset (new_dataset : RadarObj) (radar : Option RadarObj)
    (make_global : Val) : Option RadarObj × Option Int :=
  match radar with
  | none => (none, none)
  | some r =>
    if !pyTruthy make_global then (some r, none)
    else (some (new_dataset.fields.foldl (fun acc p => add_field acc p.1 p.2) r), some 0)

/-- The dataset names declared in `dataSetList`, in declaration order. -/
def namesOf (dataSetList : List String) : List String := dataSetList.map nameOf

/-- The dataset names declared at one level, in declaration order. -/
def namesAtLevel (lev : String) (dataSetList : List String) : List String :=
  ((dataSetList.filter (fun s => levelOf s == lev)).map nameOf)

/-- Number of recorded transform invocations for a given dataset name. -/
def countInv (d : String) (tr : List Invocation) : Nat :=
  (tr.filter (fun i => i.ds == d)).length

/-- The numeric level encoded by a level token (`"l10"` encodes 10), as the
spec reads it; used only to state claims about numeric level order. -/
def levelNumOf (l : String) : Nat :=
  (l.data.drop 1).foldl (fun n c => n * 10 + (c.toNat - 48)) 0

/-- Lookup of a key inside the stage dict stored at `ds` in a run
configuration. -/
def dsLookup (cfg : Dict) (ds k : String) : Option Val :=
  match alGet cfg ds with
  | some (.vdict d) => alGet d k
  | _ => none

/-- First-some choice, used to state lookup lemmas. -/
def optOr {α : Type} : Option α → Option α → Option α
  | some v, _ => some v
  | none, b => b

/-- Example run configuration used as concrete input: all scalar parameter
keys present, one declared dataset `"myds"` whose stage dict has only a
`type` entry. -/
def exCfg : Dict :=
  [("configpath", .vstr "/cfg"), ("solarfluxpath", .vnone), ("mflossh", .vnone),
   ("mflossv", .vnone), ("radconsth", .vnone), ("radconstv", .vnone),
   ("AntennaGain", .vnone), ("attg", .vnone), ("saveimgbasepath", .vstr "/img"),
   ("name", .vstr "runA"), ("myds", .vdict [("type", .vstr "RAW")])]

/-- The stage dict produced by `_create_dscfg_dict exCfg "myds"`. -/
def exDsOut : Dict :=
  [("type", .vstr "RAW"), ("configpath", .vstr "/cfg"), ("solarfluxpath", .vnone),
   ("mflossh", .vnone), ("mflossv", .vnone), ("radconsth", .vnone),
   ("radconstv", .vnone), ("AntennaGain", .vnone), ("attg", .vnone),
   ("basepath", .vstr "/img"), ("procname", .vstr "runA"), ("dsname", .vstr "myds"),
   ("timeinfo", .vnone), ("initialized", .vint 0), ("global_data", .vnone),
   ("MAKE_GLOBAL", .vint 0)]

/-- The run configuration after `_create_dscfg_dict exCfg "myds"`: the entry at
`"myds"` has been enriched in place. -/
def exCfgOut : Dict :=
  [("configpath", .vstr "/cfg"), ("solarfluxpath", .vnone), ("mflossh", .vnone),
   ("mflossv", .vnone), ("radconsth", .vnone), ("radconstv", .vnone),
   ("AntennaGain", .vnone), ("attg", .vnone), ("saveimgbasepath", .vstr "/img"),
   ("name", .vstr "runA"), ("myds", .vdict exDsOut)]

/-- Transform behaviour for the C1 scenario: dataset `"a"` raises during the
PROCESS phase, everything else returns normally. -/
def exProcC1 : Nat → String → Option Nat → TResult :=
  fun s d _ => if s == 1 && d == "a" then .raise else .done

/-- Volume fetch behaviour for the C2 scenario: the fetch for time 5 raises,
the fetch for any other time succeeds. -/
def exGetDataC2 : Nat → Bool := fun t => t != 5

/-- Dataset datatype declarations for the C8 scenario: two descriptors with
the same category and field but different source suffixes. -/
def exDatatypeOf : String → Option (List String) :=
  fun _ => some ["ZH:f,s1,p1", "ZH:f,s2,p2"]

/-! ### Association list lemmas -/

theorem alGet_alUpdate {α : Type} (l : List (String × α)) (k : String) (v : α)
    (k2 : String) :
    alGet (alUpdate l k v) k2 = if k = k2 then some v else alGet l k2 := by
  induction l with
  | nil => simp [alUpdate, alGet]
  | cons p rest ih =>
    obtain ⟨k1, v1⟩ := p
    simp only [alUpdate]
    by_cases h1 : k1 = k
    · subst h1
      by_cases h2 : k1 = k2
      · subst h2; simp [alGet]
      · simp [alGet, h2]
    · by_cases h2 : k1 = k2
      · subst h2
        have hk : ¬ k = k1 := fun hx => h1 hx.symm
        simp [alGet, hk, h1, ih]
      · simp [alGet, h1, h2, ih]

theorem alGet_append {α : Type} (a b : List (String × α)) (k : String) :
    alGet (a ++ b) k = optOr (alGet a k) (alGet b k) := by
  induction a with
  | nil => simp [alGet, optOr]
  | cons p rest ih =>
    obtain ⟨k1, v1⟩ := p
    by_cases h : k1 = k
    · simp [alGet, h, optOr]
    · simp [alGet, h, ih]

theorem alGet_isSome_iff_mem {α : Type} (l : List (String × α)) (k : String) :
    (alGet l k).isSome = true ↔ k ∈ l.map Prod.fst := by
  induction l with
  | nil => simp [alGet]
  | cons p rest ih =>
    obtain ⟨k1, v1⟩ := p
    by_cases h : k1 = k
    · simp [alGet, h]
    · simp only [alGet, if_neg h, List.map_cons, List.mem_cons]
      rw [ih]
      constructor
      · intro hm; exact Or.inr hm
      · rintro (hk | hm)
        · exact absurd hk.symm h
        · exact hm

/-! ### Lexicographic sorting lemmas -/

theorem strLtB_asymm : ∀ a b : List Char, strLtB a b = true → strLtB b a = false
  | [], [], h => by simp [strLtB] at h
  | [], _ :: _, _ => rfl
  | _ :: _, [], h => by simp [strLtB] at h
  | a :: as, b :: bs, h => by
    simp only [strLtB] at h ⊢
    by_cases h1 : a.toNat < b.toNat
    · have h2 : ¬ b.toNat < a.toNat := by omega
      simp [h1, h2]
    · by_cases h2 : b.toNat < a.toNat
      · simp [h1, h2] at h
      · simp only [h1, h2, if_false] at h ⊢
        exact strLtB_asymm as bs h

theorem pyStrLe_total (s t : String) : pyStrLe s t = true ∨ pyStrLe t s = true := by
  unfold pyStrLe pyStrLt
  cases h : strLtB t.data s.data
  · left; rfl
  · right
    simp [strLtB_asymm _ _ h]

theorem chain_orderedIns (x : String) : ∀ l : List String,
    List.Chain' (fun a b => pyStrLe a b = true) l →
    List.Chain' (fun a b => pyStrLe a b = true) (orderedIns x l)
  | [], _ => by simp [orderedIns]
  | y :: ys, h => by
    simp only [orderedIns]
    by_cases hxy : pyStrLe x y = true
    · rw [if_pos hxy]
      exact List.chain'_cons.2 ⟨hxy, h⟩
    · rw [if_neg hxy]
      have hyx : pyStrLe y x = true := (pyStrLe_total x y).resolve_left hxy
      have htail := chain_orderedIns x ys (List.Chain'.tail h)
      refine List.chain'_cons'.2 ⟨?_, htail⟩
      intro z hz
      cases ys with
      | nil =>
        simp [orderedIns] at hz
        subst hz; exact hyx
      | cons w ws =>
        simp only [orderedIns] at hz
        by_cases hxw : pyStrLe x w = true
        · rw [if_pos hxw] at hz
          simp at hz
          subst hz; exact hyx
        · rw [if_neg hxw] at hz
          simp at hz
          subst hz
          exact (List.chain'_cons.1 h).1

theorem chain_pySorted : ∀ l : List String,
    List.Chain' (fun a b => pyStrLe a b = true) (pySorted l)
  | [] => by simp [pySorted]
  | a :: l => chain_orderedIns a (pySorted l) (chain_pySorted l)

theorem perm_orderedIns (x : String) : ∀ l : List String, (orderedIns x l).Perm (x :: l)
  | [] => by simp [orderedIns]
  | y :: ys => by
    simp only [orderedIns]
    by_cases h : pyStrLe x y = true
    · rw [if_pos h]
    · rw [if_neg h]
      exact ((perm_orderedIns x ys).cons y).trans (List.Perm.swap x y ys)

theorem perm_pySorted : ∀ l : List String, (pySorted l).Perm l
  | [] => List.Perm.refl _
  | a :: l => (perm_orderedIns a (pySorted l)).trans ((perm_pySorted l).cons a)

/-! ### Lemmas on the level dictionary -/

theorem optOr_none {α : Type} (x : Option α) : optOr x none = x := by
  cases x <;> rfl

theorem alGet_mapAppend (d : List (String × List String)) (lev nm k : String) :
    alGet (d.map (fun p => if p.1 = lev then (p.1, p.2 ++ [nm]) else p)) k =
      if k = lev then (alGet d lev).map (fun v => v ++ [nm]) else alGet d k := by
  induction d with
  | nil => by_cases h : k = lev <;> simp [alGet, h]
  | cons p rest ih =>
    obtain ⟨k1, v1⟩ := p
    have hmap : List.map (fun p => if p.1 = lev then (p.1, p.2 ++ [nm]) else p)
        ((k1, v1) :: rest) =
        (if k1 = lev then (k1, v1 ++ [nm]) else (k1, v1)) ::
          List.map (fun p => if p.1 = lev then (p.1, p.2 ++ [nm]) else p) rest := rfl
    rw [hmap]
    by_cases h1 : k1 = lev
    · rw [if_pos h1]
      have hcons : alGet ((k1, v1 ++ [nm]) ::
          List.map (fun p => if p.1 = lev then (p.1, p.2 ++ [nm]) else p) rest) k =
          if k1 = k then some (v1 ++ [nm])
          else alGet (List.map (fun p => if p.1 = lev then (p.1, p.2 ++ [nm]) else p) rest) k :=
        rfl
      rw [hcons]
      by_cases h2 : k1 = k
      · subst h2
        rw [if_pos rfl, if_pos h1]
        have hv : alGet ((k1, v1) :: rest) lev = some v1 := by
          have he : alGet ((k1, v1) :: rest) lev = if k1 = lev then some v1 else alGet rest lev :=
            rfl
          rw [he, if_pos h1]
        rw [hv]
        rfl
      · rw [if_neg h2, ih]
        have hkl : ¬ k = lev := fun hx => h2 (h1.trans hx.symm)
        rw [if_neg hkl, if_neg hkl]
        have : alGet ((k1, v1) :: rest) k = if k1 = k then some v1 else alGet rest k := rfl
        rw [this, if_neg h2]
    · rw [if_neg h1]
      have hcons : alGet ((k1, v1) ::
          List.map (fun p => if p.1 = lev then (p.1, p.2 ++ [nm]) else p) rest) k =
          if k1 = k then some v1
          else alGet (List.map (fun p => if p.1 = lev then (p.1, p.2 ++ [nm]) else p) rest) k :=
        rfl
      rw [hcons]
      have hget : alGet ((k1, v1) :: rest) k = if k1 = k then some v1 else alGet rest k := rfl
      by_cases h2 : k1 = k
      · subst h2
        rw [if_pos rfl, hget, if_pos rfl]
        have hkl : ¬ k1 = lev := h1
        rw [if_neg hkl]
      · rw [if_neg h2, ih, hget, if_neg h2]
        by_cases hkl : k = lev
        · rw [if_pos hkl, if_pos hkl]
          have hl : alGet ((k1, v1) :: rest) lev = if k1 = lev then some v1 else alGet rest lev := rfl
          rw [hl, if_neg h1]
        · rw [if_neg hkl, if_neg hkl]

theorem alGet_addToLevels (d : List (String × List String)) (lev nm k : String) :
    alGet (addToLevels d lev nm) k =
      if k = lev then some (((alGet d lev).getD []) ++ [nm]) else alGet d k := by
  unfold addToLevels
  by_cases hs : (alGet d lev).isSome = true
  · obtain ⟨v, hv⟩ := Option.isSome_iff_exists.mp hs
    rw [if_pos (by rw [hv]; rfl)]
    rw [alGet_mapAppend, hv]
    rfl
  · have hn : alGet d lev = none := Option.not_isSome_iff_eq_none.mp hs
    rw [if_neg (by rw [hn]; simp)]
    rw [alGet_append, hn]
    by_cases hk : k = lev
    · subst hk
      simp [alGet, hn, optOr]
    · have hlk : ¬ lev = k := fun hx => hk hx.symm
      simp [alGet, hlk, hk, optOr_none]

theorem getDatasets_fold_lookup (dsl : List String) :
    ∀ (acc : List (String × List String)) (k : String),
      (alGet (dsl.foldl dsStep acc) k).getD [] =
        ((alGet acc k).getD []) ++ namesAtLevel k dsl := by
  induction dsl with
  | nil => intro acc k; simp [namesAtLevel]
  | cons s rest ih =>
    intro acc k
    rw [List.foldl_cons, ih]
    unfold dsStep
    rw [alGet_addToLevels]
    by_cases hk : k = levelOf s
    · subst hk
      rw [if_pos rfl]
      have hb : (levelOf s == levelOf s) = true := by simp
      simp [namesAtLevel, List.filter_cons, hb]
    · rw [if_neg hk]
      have hb : (levelOf s == k) = false := by
        simp only [beq_eq_false_iff_ne, ne_eq]
        exact fun hx => hk hx.symm
      simp [namesAtLevel, List.filter_cons, hb]

theorem getDatasets_lookup (dsl : List String) (k : String) :
    (alGet (_get_datasets_list dsl) k).getD [] = namesAtLevel k dsl := by
  unfold _get_datasets_list
  rw [getDatasets_fold_lookup]
  by_cases h : "l0" = k <;> simp [alGet, h]

theorem fold_isSome_mono (dsl : List String) :
    ∀ (acc : List (String × List String)) (k : String),
      (alGet acc k).isSome = true →
      (alGet (dsl.foldl dsStep acc) k).isSome = true := by
  induction dsl with
  | nil => intro acc k h; simpa using h
  | cons s rest ih =>
    intro acc k h
    rw [List.foldl_cons]
    apply ih
    unfold dsStep
    rw [alGet_addToLevels]
    by_cases hk : k = levelOf s
    · rw [if_pos hk]; rfl
    · rw [if_neg hk]; exact h

theorem getDatasets_l0_isSome (dsl : List String) :
    (alGet (_get_datasets_list dsl) "l0").isSome = true := by
  unfold _get_datasets_list
  apply fold_isSome_mono
  simp [alGet]

theorem fold_level_isSome (dsl : List String) :
    ∀ (acc : List (String × List String)) (s : String), s ∈ dsl →
      (alGet (dsl.foldl dsStep acc) (levelOf s)).isSome = true := by
  induction dsl with
  | nil => intro acc s h; cases h
  | cons x rest ih =>
    intro acc s hs
    rcases List.mem_cons.mp hs with h | h
    · subst h
      rw [List.foldl_cons]
      apply fold_isSome_mono
      unfold dsStep
      rw [alGet_addToLevels, if_pos rfl]
      rfl
    · rw [List.foldl_cons]
      exact ih _ s h

theorem keys_addToLevels (d : List (String × List String)) (lev nm : String) :
    (addToLevels d lev nm).map Prod.fst =
      if (alGet d lev).isSome then d.map Prod.fst else d.map Prod.fst ++ [lev] := by
  unfold addToLevels
  by_cases hs : (alGet d lev).isSome = true
  · rw [if_pos hs, if_pos hs, List.map_map]
    congr 1
    funext p
    by_cases h : p.1 = lev <;> simp [h]
  · rw [if_neg hs, if_neg hs, List.map_append]
    rfl

theorem nodup_keys_addToLevels (d : List (String × List String)) (lev nm : String)
    (h : (d.map Prod.fst).Nodup) : ((addToLevels d lev nm).map Prod.fst).Nodup := by
  rw [keys_addToLevels]
  by_cases hs : (alGet d lev).isSome = true
  · rwa [if_pos hs]
  · rw [if_neg hs]
    have hmem : lev ∉ d.map Prod.fst := by
      intro hm
      exact hs ((alGet_isSome_iff_mem d lev).mpr hm)
    simp [List.nodup_append, h, hmem]

theorem nodup_keys_fold (dsl : List String) :
    ∀ acc : List (String × List String),
      (acc.map Prod.fst).Nodup → ((dsl.foldl dsStep acc).map Prod.fst).Nodup := by
  induction dsl with
  | nil => intro acc h; simpa using h
  | cons s rest ih =>
    intro acc h
    rw [List.foldl_cons]
    exact ih _ (nodup_keys_addToLevels _ _ _ h)

theorem nodup_keys_getDatasets (dsl : List String) :
    ((_get_datasets_list dsl).map Prod.fst).Nodup := by
  unfold _get_datasets_list
  exact nodup_keys_fold dsl _ (by simp)

/-! ### Counting lemmas for the visit order -/

theorem count_flatMapL (d : String) (f : String → List String) :
    ∀ l : List String, (l.flatMap f).count d = (l.map (fun k => (f k).count d)).sum := by
  intro l
  induction l with
  | nil => simp
  | cons x xs ih => simp [List.flatMap_cons, List.count_append, ih]

theorem sum_map_add_split (f g : String → Nat) :
    ∀ l : List String, (l.map (fun k => f k + g k)).sum = (l.map f).sum + (l.map g).sum := by
  intro l
  induction l with
  | nil => simp
  | cons x xs ih => simp [ih]; omega

theorem sum_map_ite_not_mem (x : String) (c : Nat) :
    ∀ l : List String, x ∉ l → (l.map (fun k => if x = k then c else 0)).sum = 0 := by
  intro l
  induction l with
  | nil => intro _; simp
  | cons y ys ih =>
    intro hx
    have hxy : ¬ x = y := fun h => hx (h ▸ List.mem_cons_self y ys)
    have hxs : x ∉ ys := fun h => hx (List.mem_cons_of_mem y h)
    simp [hxy, ih hxs]

theorem sum_map_ite_single (x : String) (c : Nat) :
    ∀ l : List String, l.Nodup → x ∈ l →
      (l.map (fun k => if x = k then c else 0)).sum = c := by
  intro l
  induction l with
  | nil => intro _ h; cases h
  | cons y ys ih =>
    intro hnd hx
    rcases List.mem_cons.mp hx with h | h
    · subst h
      have hnot : x ∉ ys := (List.nodup_cons.mp hnd).1
      simp [sum_map_ite_not_mem x c ys hnot]
    · have hxy : ¬ x = y := by
        intro he
        subst he
        exact (List.nodup_cons.mp hnd).1 h
      simp [hxy, ih (List.nodup_cons.mp hnd).2 h]

theorem sum_namesAtLevel_count (d : String) :
    ∀ dsl ks : List String, ks.Nodup → (∀ s ∈ dsl, levelOf s ∈ ks) →
      (ks.map (fun k => (namesAtLevel k dsl).count d)).sum = (namesOf dsl).count d := by
  intro dsl
  induction dsl with
  | nil =>
    intro ks _ _
    have h0 : ∀ k ∈ ks, (namesAtLevel k [] : List String).count d = 0 := by
      intro k _; simp [namesAtLevel]
    calc (ks.map fun k => (namesAtLevel k []).count d).sum
        = (ks.map fun _ => (0 : Nat)).sum := by
          rw [List.map_congr_left h0]
      _ = 0 := by simp
      _ = (namesOf []).count d := by simp [namesOf]
  | cons s rest ih =>
    intro ks hnd hmem
    have hAt : ∀ k ∈ ks, (namesAtLevel k (s :: rest)).count d =
        (if levelOf s = k then (if nameOf s = d then 1 else 0) else 0) +
          (namesAtLevel k rest).count d := by
      intro k _
      unfold namesAtLevel
      rw [List.filter_cons]
      by_cases h : levelOf s = k
      · have hb : (levelOf s == k) = true := by simp [h]
        rw [if_pos hb, if_pos h, List.map_cons, List.count_cons]
        by_cases hd : nameOf s = d
        · have hbd : (nameOf s == d) = true := by simp [hd]
          rw [if_pos hbd, if_pos hd]
          omega
        · have hbd : (nameOf s == d) = false := by simp [hd]
          rw [if_neg hd]
          simp [hbd]
      · have hb : (levelOf s == k) = false := by simp [h]
        rw [if_neg (by simp [hb] : ¬ (levelOf s == k) = true), if_neg h]
        simp
    calc (ks.map fun k => (namesAtLevel k (s :: rest)).count d).sum
        = (ks.map fun k =>
            (if levelOf s = k then (if nameOf s = d then 1 else 0) else 0) +
              (namesAtLevel k rest).count d).sum := by
          rw [List.map_congr_left hAt]
      _ = (ks.map fun k =>
            (if levelOf s = k then (if nameOf s = d then 1 else 0) else 0)).sum +
            (ks.map fun k => (namesAtLevel k rest).count d).sum :=
          sum_map_add_split _ _ ks
      _ = (if nameOf s = d then 1 else 0) + (namesOf rest).count d := by
          rw [sum_map_ite_single (levelOf s) _ ks hnd (hmem s (List.mem_cons_self s rest)),
            ih ks hnd (fun x hx => hmem x (List.mem_cons_of_mem s hx))]
      _ = (namesOf (s :: rest)).count d := by
          simp only [namesOf, List.map_cons, List.count_cons]
          by_cases hd : nameOf s = d
          · have hbd : (nameOf s == d) = true := by simp [hd]
            simp [hd, hbd]
            omega
          · have hbd : (nameOf s == d) = false := by simp [hd]
            simp [hd, hbd]

theorem visit_count (dsl : List String) (d : String) :
    (visitOrder (_get_datasets_list dsl)).count d = (namesOf dsl).count d := by
  unfold visitOrder
  rw [count_flatMapL]
  have hperm :
      ((sortedKeys (_get_datasets_list dsl)).map
          (fun k => ((alGet (_get_datasets_list dsl) k).getD []).count d)).Perm
        (((_get_datasets_list dsl).map Prod.fst).map
          (fun k => ((alGet (_get_datasets_list dsl) k).getD []).count d)) :=
    (perm_pySorted _).map _
  rw [hperm.sum_eq]
  have hsimp : ∀ k ∈ (_get_datasets_list dsl).map Prod.fst,
      ((alGet (_get_datasets_list dsl) k).getD []).count d = (namesAtLevel k dsl).count d := by
    intro k _
    rw [getDatasets_lookup]
  rw [List.map_congr_left hsimp]
  exact sum_namesAtLevel_count d dsl _ (nodup_keys_getDatasets dsl)
    (fun s hs => (alGet_isSome_iff_mem _ _).mp (fold_level_isSome dsl _ s hs))

/-! ### Trace lemmas for the control skeleton of `main` -/

theorem procPass_ok (proc : Nat → String → Option Nat → TResult) (status : Nat)
    (t : Option Nat) :
    ∀ order : List String, (∀ d ∈ order, proc status d t = .done) →
      procPass proc status t order = (order.map (fun d => ⟨status, d, t⟩), none) := by
  intro order
  induction order with
  | nil => intro _; rfl
  | cons d ds ih =>
    intro h
    have hd : proc status d t = .done := h d (List.mem_cons_self d ds)
    have hds := ih (fun x hx => h x (List.mem_cons_of_mem d hx))
    simp [procPass, hd, hds]

theorem streamLoop_ok (getData : Nat → Bool) (proc : Nat → String → Option Nat → TResult)
    (order : List String) :
    ∀ times : List Nat, (∀ t ∈ times, getData t = true) →
      (∀ t ∈ times, ∀ d ∈ order, proc 1 d (some t) = .done) →
      streamLoop getData proc order times =
        (times.flatMap (fun t => order.map (fun d => ⟨1, d, some t⟩)), none) := by
  intro times
  induction times with
  | nil => intro _ _; rfl
  | cons t ts ih =>
    intro hg hp
    have hgt : getData t = true := hg t (List.mem_cons_self t ts)
    have hpass := procPass_ok proc 1 (some t) order
      (hp t (List.mem_cons_self t ts))
    have hrest := ih (fun x hx => hg x (List.mem_cons_of_mem t hx))
      (fun x hx => hp x (List.mem_cons_of_mem t hx))
    simp [streamLoop, hgt, hpass, hrest]

theorem countInv_append (d : String) (a b : List Invocation) :
    countInv d (a ++ b) = countInv d a + countInv d b := by
  unfold countInv
  rw [List.filter_append, List.length_append]

theorem countInv_map_order (d : String) (status : Nat) (t : Option Nat) :
    ∀ order : List String,
      countInv d (order.map (fun x => ⟨status, x, t⟩)) = order.count d := by
  intro order
  induction order with
  | nil => rfl
  | cons x xs ih =>
    unfold countInv at ih ⊢
    rw [List.map_cons, List.filter_cons, List.count_cons]
    by_cases h : x = d
    · have hb : ((⟨status, x, t⟩ : Invocation).ds == d) = true := by simp [h]
      have hb2 : (x == d) = true := by simp [h]
      rw [if_pos hb, List.length_cons, ih, hb2]
      simp
    · have hb : ((⟨status, x, t⟩ : Invocation).ds == d) = false := by simp [h]
      have hb2 : (x == d) = false := by simp [h]
      rw [if_neg (by simp [hb] : ¬ ((⟨status, x, t⟩ : Invocation).ds == d) = true), ih, hb2]
      simp

theorem countInv_flatMap_steps (d : String) (order : List String) :
    ∀ times : List Nat,
      countInv d (times.flatMap (fun t => order.map (fun x => ⟨1, x, some t⟩))) =
        times.length * order.count d := by
  intro times
  induction times with
  | nil => simp [countInv]
  | cons t ts ih =>
    rw [List.flatMap_cons, countInv_append, countInv_map_order, ih,
      List.length_cons]
    ring

theorem mainTrace_ok (dsl : List String) (times : List Nat) (getData : Nat → Bool)
    (proc : Nat → String → Option Nat → TResult)
    (hne : times ≠ [])
    (hg : ∀ t ∈ times, getData t = true)
    (hp : ∀ status d t, proc status d t = .done) :
    mainTrace dsl times getData proc =
      ((visitOrder (_get_datasets_list dsl)).map (fun x => ⟨0, x, none⟩) ++
        times.flatMap (fun t =>
          (visitOrder (_get_datasets_list dsl)).map (fun x => ⟨1, x, some t⟩)) ++
        (visitOrder (_get_datasets_list dsl)).map (fun x => ⟨2, x, times.getLast?⟩),
        none) := by
  obtain ⟨t0, ts, rfl⟩ : ∃ t0 ts, times = t0 :: ts := by
    cases times with
    | nil => exact absurd rfl hne
    | cons a l => exact ⟨a, l, rfl⟩
  have h0 := procPass_ok proc 0 none (visitOrder (_get_datasets_list dsl))
    (fun d _ => hp 0 d none)
  have h1 := streamLoop_ok getData proc (visitOrder (_get_datasets_list dsl))
    (t0 :: ts) hg (fun t _ d _ => hp 1 d (some t))
  have h2 := procPass_ok proc 2 ((t0 :: ts).getLast? ) (visitOrder (_get_datasets_list dsl))
    (fun d _ => hp 2 d _)
  simp only [mainTrace, h0, h1, h2]

/-! ### Claim theorems -/

/-- Claim C7: for every configuration whose resolved master file list is empty,
`main` raises the empty-timeline error before any dataset transform is
invoked: the recorded trace is empty and the run terminates with that
error. -/
theorem C7_empty_timeline_aborts_before_any_transform
    (dsl : List String) (getData : Nat → Bool)
    (proc : Nat → String → Option Nat → TResult) :
    mainTrace dsl [] getData proc = ([], some .noVolumes) := rfl

/-- Claim C5: for a run over `N >= 1` master files in which no transform raises
and every volume fetch succeeds, a dataset declared exactly once has its
transform invoked exactly `N + 2` times (once at initialization, once per
timeline step, once at final processing). -/
theorem C5_transform_invoked_n_plus_two_times
    (dsl : List String) (times : List Nat) (getData : Nat → Bool)
    (proc : Nat → String → Option Nat → TResult) (d : String)
    (hne : times ≠ [])
    (hg : ∀ t ∈ times, getData t = true)
    (hp : ∀ status x t, proc status x t = .done)
    (honce : (namesOf dsl).count d = 1) :
    countInv d (mainTrace dsl times getData proc).1 = times.length + 2 := by
  rw [mainTrace_ok dsl times getData proc hne hg hp]
  have hvisit : (visitOrder (_get_datasets_list dsl)).count d = 1 := by
    rw [visit_count, honce]
  rw [countInv_append, countInv_append, countInv_map_order, countInv_map_order,
    countInv_flatMap_steps, hvisit]
  ring

/-- Witness for C5 at a concrete run: two datasets, three master files; the
transform of dataset `"a"` runs exactly `3 + 2 = 5` times. -/
theorem C5_transform_invoked_n_plus_two_times_witness :
    countInv "a"
      (mainTrace ["l0:a", "l0:b"] [3, 4, 5] (fun _ => true) (fun _ _ _ => .done)).1 =
      3 + 2 :=
  C5_transform_invoked_n_plus_two_times ["l0:a", "l0:b"] [3, 4, 5] (fun _ => true)
    (fun _ _ _ => .done) "a" (by decide) (fun _ _ => rfl) (fun _ _ _ => rfl) (by decide)

/-- Claim C1 counterexample: with datasets `"a"` and `"b"` and a transform that
raises for `"a"` during the PROCESS phase, the run aborts at that point:
dataset `"b"`'s PROCESS transform is never invoked and `main` terminates
with the propagated exception — contradicting the claim that the failure is
caught per-dataset and that subsequent transforms still run. -/
theorem C1_counterexample :
    (mainTrace ["l0:a", "l0:b"] [5] (fun _ => true) exProcC1).2 =
      some (.transformFail 1 "a") ∧
    (⟨1, "b", some 5⟩ : Invocation) ∉
      (mainTrace ["l0:a", "l0:b"] [5] (fun _ => true) exProcC1).1 := by
  constructor
  · decide
  · decide

/-- Claim C1 (amended): `main` has no exception handling around the transform
call, so when a dataset's transform raises during the PROCESS phase the
exception propagates and aborts the run immediately: the trace ends at the
failing invocation, and no subsequent dataset of that step, no later step
and no final-processing pass is executed.  Stated for a failure at the
first dataset of the first step. -/
theorem C1_amended_transform_exception_aborts_run
    (dsl : List String) (getData : Nat → Bool)
    (proc : Nat → String → Option Nat → TResult)
    (t0 : Nat) (ts : List Nat) (d0 : String) (rest : List String)
    (horder : visitOrder (_get_datasets_list dsl) = d0 :: rest)
    (hinit : ∀ x ∈ visitOrder (_get_datasets_list dsl), proc 0 x none = .done)
    (hfetch : getData t0 = true)
    (hraise : proc 1 d0 (some t0) = .raise) :
    mainTrace dsl (t0 :: ts) getData proc =
      ((visitOrder (_get_datasets_list dsl)).map (fun x => ⟨0, x, none⟩) ++
        [⟨1, d0, some t0⟩], some (.transformFail 1 d0)) := by
  have h0 := procPass_ok proc 0 none (visitOrder (_get_datasets_list dsl)) hinit
  have hpass1 : procPass proc 1 (some t0) (visitOrder (_get_datasets_list dsl)) =
      ([⟨1, d0, some t0⟩], some (.transformFail 1 d0)) := by
    rw [horder]
    simp [procPass, hraise]
  simp only [mainTrace, h0, streamLoop, hfetch, hpass1]
  simp

/-- Witness for the amended C1 at a concrete run. -/
theorem C1_amended_transform_exception_aborts_run_witness :
    mainTrace ["l0:a", "l0:b"] [5] (fun _ => true) exProcC1 =
      ((["a", "b"] : List String).map (fun x => ⟨0, x, none⟩) ++
        [⟨1, "a", some 5⟩], some (.transformFail 1 "a")) := by
  have h := C1_amended_transform_exception_aborts_run ["l0:a", "l0:b"] (fun _ => true)
    exProcC1 5 [] "a" ["b"] (by decide) (by decide) rfl (by decide)
  rw [h]
  decide

/-- Claim C2 counterexample: with master files at times 5 and 6 and a volume
fetch that raises at time 5, the run aborts: no PROCESS invocation happens
for time 6 either — contradicting the claim that the failed step is skipped
with a warning and the run continues with the next timeline step. -/
theorem C2_counterexample :
    (mainTrace ["l0:a"] [5, 6] exGetDataC2 (fun _ _ _ => .done)).2 =
      some (.fetchFail 5) ∧
    (⟨1, "a", some 6⟩ : Invocation) ∉
      (mainTrace ["l0:a"] [5, 6] exGetDataC2 (fun _ _ _ => .done)).1 := by
  constructor
  · decide
  · decide

/-- Claim C2 (amended): `main` has no exception handling around `get_data`, so a
volume fetch failure aborts the run: the trace ends with the initialization
pass, the error propagates, and neither the failing step nor any later step
is processed.  Stated for a failure at the first step. -/
theorem C2_amended_fetch_failure_aborts_run
    (dsl : List String) (getData : Nat → Bool)
    (proc : Nat → String → Option Nat → TResult) (t0 : Nat) (ts : List Nat)
    (hinit : ∀ x ∈ visitOrder (_get_datasets_list dsl), proc 0 x none = .done)
    (hfetch : getData t0 = false) :
    mainTrace dsl (t0 :: ts) getData proc =
      ((visitOrder (_get_datasets_list dsl)).map (fun x => ⟨0, x, none⟩),
        some (.fetchFail t0)) := by
  have h0 := procPass_ok proc 0 none (visitOrder (_get_datasets_list dsl)) hinit
  simp only [mainTrace, h0, streamLoop, hfetch]
  simp

/-- Witness for the amended C2 at a concrete run. -/
theorem C2_amended_fetch_failure_aborts_run_witness :
    mainTrace ["l0:a"] [5, 6] exGetDataC2 (fun _ _ _ => .done) =
      ((["a"] : List String).map (fun x => ⟨0, x, none⟩), some (.fetchFail 5)) := by
  have h := C2_amended_fetch_failure_aborts_run ["l0:a"] exGetDataC2
    (fun _ _ _ => .done) 5 [6] (by decide) rfl
  rw [h]
  decide

/-- Claim C3 counterexample: levels are iterated in Python string-sorted
(lexicographic) order of their tokens, not in ascending numeric order:
with declarations at levels 2 and 10, the key `"l10"` sorts before `"l2"`,
so the level-10 dataset `"b"` is visited before the level-2 dataset
`"a"`. -/
theorem C3_counterexample :
    sortedKeys (_get_datasets_list ["l2:a", "l10:b"]) = ["l0", "l10", "l2"] ∧
    visitOrder (_get_datasets_list ["l2:a", "l10:b"]) = ["b", "a"] ∧
    levelNumOf "l10" = 10 ∧ levelNumOf "l2" = 2 := by
  refine ⟨?_, ?_, ?_, ?_⟩ <;> decide

/-- Claim C3 (amended): every pass visits the levels in ascending
*lexicographic* order of their level tokens (this equals numeric order only
while all tokens compare consistently, e.g. levels 0-9); within a level,
datasets keep declaration order (the stored list at each level token is
exactly the declared names at that level, in order); and the level mapping
always contains an entry for `"l0"`, even when no descriptor declares
level 0. -/
theorem C3_amended_level_iteration_order (dsl : List String) (lev : String) :
    List.Chain' (fun a b => pyStrLe a b = true) (sortedKeys (_get_datasets_list dsl)) ∧
    (alGet (_get_datasets_list dsl) lev).getD [] = namesAtLevel lev dsl ∧
    (alGet (_get_datasets_list dsl) "l0").isSome = true :=
  ⟨chain_pySorted _, getDatasets_lookup dsl lev, getDatasets_l0_isSome dsl⟩

/-! ### Master descriptor resolution lemmas -/

theorem masterSelectFirst_all_aux :
    ∀ l : List String, (∀ p ∈ l, isAuxGroup (datagroupOf p) = true) →
      masterSelectFirst l = none := by
  intro l
  induction l with
  | nil => intro _; rfl
  | cons d ds ih =>
    intro h
    have hd : isAuxGroup (datagroupOf d) = true := h d (List.mem_cons_self d ds)
    simp only [masterSelectFirst, hd, if_true]
    exact ih (fun x hx => h x (List.mem_cons_of_mem d hx))

theorem masterSelectFirst_split :
    ∀ (pre : List String) (d : String) (post : List String),
      (∀ p ∈ pre, isAuxGroup (datagroupOf p) = true) →
      isAuxGroup (datagroupOf d) = false →
      masterSelectFirst (pre ++ d :: post) = some d := by
  intro pre
  induction pre with
  | nil =>
    intro d post _ hd
    simp [masterSelectFirst, hd]
  | cons p ps ih =>
    intro d post hpre hd
    have hp : isAuxGroup (datagroupOf p) = true := hpre p (List.mem_cons_self p ps)
    simp only [List.cons_append, masterSelectFirst, hp, if_true]
    exact ih d post (fun x hx => hpre x (List.mem_cons_of_mem p hx)) hd

theorem fallback_some_of_aux (g : String) (h : isAuxGroup g = true) :
    ∃ m, fallbackDescr g = some m := by
  unfold isAuxGroup at h
  simp only [Bool.or_eq_true, decide_eq_true_eq] at h
  rcases h with ((h | h) | h) | h <;> subst h <;> exact ⟨_, rfl⟩

/-- Claim C4 counterexample: when the list of required data type descriptors is
empty, neither selection loop fires; the source raises no `NoClockAvailable`
error — `_get_masterfile_list` simply returns `None` as the master
descriptor and still calls the external file-listing routine with it. -/
theorem C4_counterexample :
    _get_masterfile_list (fun _ => []) [] = ([], none) := rfl

/-- Claim C4 (amended): the master descriptor is the first required descriptor
whose data group is none of COSMO, RAD4ALPCOSMO, DEM, RAD4ALPDEM; if every
descriptor is in one of those groups, it is the family default
(`'RAINBOW:dBZ'` for COSMO/DEM, `'RAD4ALP:dBZ'` for RAD4ALPCOSMO/RAD4ALPDEM)
of the first descriptor; if the descriptor list is empty the resolution
yields `none` (and the source proceeds with it — it does not fail). -/
theorem C4_amended_master_resolution (descrs : List String)
    (getFileList : Option String → List String) :
    (∀ (pre : List String) (d : String) (post : List String),
        descrs = pre ++ d :: post →
        (∀ p ∈ pre, isAuxGroup (datagroupOf p) = true) →
        isAuxGroup (datagroupOf d) = false →
        _get_masterfile_list getFileList descrs = (getFileList (some d), some d)) ∧
    ((∀ p ∈ descrs, isAuxGroup (datagroupOf p) = true) →
        masterSelect descrs =
          descrs.head?.bind (fun d => fallbackDescr (datagroupOf d))) ∧
    masterSelect [] = none := by
  refine ⟨?_, ?_, rfl⟩
  · intro pre d post hsplit hpre hd
    subst hsplit
    have h1 : masterSelect (pre ++ d :: post) = some d := by
      unfold masterSelect
      rw [masterSelectFirst_split pre d post hpre hd]
    unfold _get_masterfile_list
    rw [h1]
  · intro hall
    unfold masterSelect
    rw [masterSelectFirst_all_aux descrs hall]
    cases descrs with
    | nil => rfl
    | cons d rest =>
      have hd : isAuxGroup (datagroupOf d) = true := hall d (List.mem_cons_self d rest)
      obtain ⟨m, hm⟩ := fallback_some_of_aux (datagroupOf d) hd
      simp [masterSelectFallback, hm]

/-- Witness for the amended C4: a COSMO-only descriptor set falls back to
`'RAINBOW:dBZ'`; a first non-auxiliary descriptor is selected as-is. -/
theorem C4_amended_master_resolution_witness :
    _get_masterfile_list (fun m => m.toList) ["COSMO:TEMP", "RAD4ALP:dBZ"] =
      (["RAD4ALP:dBZ"], some "RAD4ALP:dBZ") ∧
    masterSelect ["DEM:VIS"] = some "RAINBOW:dBZ" := by
  constructor
  · exact (C4_amended_master_resolution ["COSMO:TEMP", "RAD4ALP:dBZ"]
      (fun m => m.toList)).1 ["COSMO:TEMP"] "RAD4ALP:dBZ" [] rfl (by decide) (by decide)
  · exact ((C4_amended_master_resolution ["DEM:VIS"] (fun _ => [])).2.1
      (by decide)).trans (by decide)

/-! ### Datatype list lemmas -/

theorem mem_setAdd (s : List String) (x y : String) :
    x ∈ setAdd s y ↔ x ∈ s ∨ x = y := by
  unfold setAdd
  by_cases h : y ∈ s
  · rw [if_pos h]
    constructor
    · exact Or.inl
    · rintro (hx | hx)
      · exact hx
      · exact hx ▸ h
  · rw [if_neg h]
    simp

theorem nodup_setAdd (s : List String) (y : String) (h : s.Nodup) :
    (setAdd s y).Nodup := by
  unfold setAdd
  by_cases hm : y ∈ s
  · rwa [if_pos hm]
  · rw [if_neg hm]
    simp [List.nodup_append, h, hm]

theorem mem_addTypes (x : String) :
    ∀ (dts acc : List String),
      x ∈ addTypes acc dts ↔ x ∈ acc ∨ (x ∈ dts ∧ datagroupOf x ≠ "PROC") := by
  intro dts
  induction dts with
  | nil => intro acc; simp [addTypes]
  | cons dt rest ih =>
    intro acc
    have hstep : addTypes acc (dt :: rest) =
        addTypes (if datagroupOf dt ≠ "PROC" then setAdd acc dt else acc) rest := rfl
    rw [hstep, ih]
    by_cases hdt : datagroupOf dt = "PROC"
    · rw [if_neg (by simp [hdt])]
      constructor
      · rintro (hx | hx)
        · exact Or.inl hx
        · exact Or.inr ⟨List.mem_cons_of_mem dt hx.1, hx.2⟩
      · rintro (hx | ⟨hmem, hpr⟩)
        · exact Or.inl hx
        · rcases List.mem_cons.mp hmem with he | hm
          · exact absurd (he ▸ hdt) hpr
          · exact Or.inr ⟨hm, hpr⟩
    · rw [if_pos hdt, ]
      rw [mem_setAdd]
      constructor
      · rintro ((hx | he) | hx)
        · exact Or.inl hx
        · exact Or.inr ⟨he ▸ List.mem_cons_self dt rest, he ▸ hdt⟩
        · exact Or.inr ⟨List.mem_cons_of_mem dt hx.1, hx.2⟩
      · rintro (hx | ⟨hmem, hpr⟩)
        · exact Or.inl (Or.inl hx)
        · rcases List.mem_cons.mp hmem with he | hm
          · exact Or.inl (Or.inr he)
          · exact Or.inr ⟨hm, hpr⟩

theorem nodup_addTypes :
    ∀ (dts acc : List String), acc.Nodup → (addTypes acc dts).Nodup := by
  intro dts
  induction dts with
  | nil => intro acc h; exact h
  | cons dt rest ih =>
    intro acc h
    have hstep : addTypes acc (dt :: rest) =
        addTypes (if datagroupOf dt ≠ "PROC" then setAdd acc dt else acc) rest := rfl
    rw [hstep]
    apply ih
    by_cases hdt : datagroupOf dt ≠ "PROC"
    · rw [if_pos hdt]; exact nodup_setAdd acc dt h
    · rwa [if_neg hdt]

theorem mem_dtFold (x : String) (datatypeOf : String → Option (List String)) :
    ∀ (dsl : List String) (acc : List String),
      (x ∈ dsl.foldl (fun acc descr =>
          match datatypeOf (nameOf descr) with
          | none => acc
          | some dts => addTypes acc dts) acc) ↔
        x ∈ acc ∨ (datagroupOf x ≠ "PROC" ∧
          ∃ descr ∈ dsl, x ∈ (datatypeOf (nameOf descr)).getD []) := by
  intro dsl
  induction dsl with
  | nil => intro acc; simp
  | cons s rest ih =>
    intro acc
    rw [List.foldl_cons, ih]
    cases hdt : datatypeOf (nameOf s) with
    | none =>
      simp only [hdt, Option.getD_none]
      constructor
      · rintro (hx | ⟨hpr, descr, hd, hm⟩)
        · exact Or.inl hx
        · exact Or.inr ⟨hpr, descr, List.mem_cons_of_mem s hd, hm⟩
      · rintro (hx | ⟨hpr, descr, hd, hm⟩)
        · exact Or.inl hx
        · rcases List.mem_cons.mp hd with he | hd2
          · subst he; rw [hdt] at hm; cases hm
          · exact Or.inr ⟨hpr, descr, hd2, hm⟩
    | some dts =>
      simp only [hdt, Option.getD_some]
      rw [mem_addTypes]
      constructor
      · rintro ((hx | ⟨hm, hpr⟩) | ⟨hpr, descr, hd, hm⟩)
        · exact Or.inl hx
        · exact Or.inr ⟨hpr, s, List.mem_cons_self s rest, by rw [hdt]; exact hm⟩
        · exact Or.inr ⟨hpr, descr, List.mem_cons_of_mem s hd, hm⟩
      · rintro (hx | ⟨hpr, descr, hd, hm⟩)
        · exact Or.inl (Or.inl hx)
        · rcases List.mem_cons.mp hd with he | hd2
          · subst he
            rw [hdt] at hm
            exact Or.inl (Or.inr ⟨hm, hpr⟩)
          · exact Or.inr ⟨hpr, descr, hd2, hm⟩

theorem nodup_dtFold (datatypeOf : String → Option (List String)) :
    ∀ (dsl : List String) (acc : List String), acc.Nodup →
      (dsl.foldl (fun acc descr =>
          match datatypeOf (nameOf descr) with
          | none => acc
          | some dts => addTypes acc dts) acc).Nodup := by
  intro dsl
  induction dsl with
  | nil => intro acc h; exact h
  | cons s rest ih =>
    intro acc h
    rw [List.foldl_cons]
    apply ih
    cases hdt : datatypeOf (nameOf s) with
    | none => exact h
    | some dts => exact nodup_addTypes dts acc h

/-- Claim C8 counterexample: uniqueness in `_get_datatype_list` is by the whole
descriptor string, not by (category, field): two declarations with the same
category `"ZH"` and field `"f"` but different source-stage suffixes stay as
two distinct entries instead of collapsing to one. -/
theorem C8_counterexample :
    _get_datatype_list ["l0:d"] exDatatypeOf = ["ZH:f,s1,p1", "ZH:f,s2,p2"] ∧
    datagroupOf "ZH:f,s1,p1" = "ZH" ∧ datagroupOf "ZH:f,s2,p2" = "ZH" ∧
    datatypeFieldOf "ZH:f,s1,p1" = "f" ∧ datatypeFieldOf "ZH:f,s2,p2" = "f" := by
  refine ⟨?_, ?_, ?_, ?_, ?_⟩ <;> decide

/-- Claim C8 (amended): the computed datatype descriptor list is duplicate-free
and has set semantics over *whole descriptor strings* (two declarations
collapse exactly when category, field and any source suffix all coincide,
and membership does not depend on declaration order); every declaration
whose data group is `'PROC'` is excluded. -/
theorem C8_amended_datatype_list_set_semantics (dsl : List String)
    (datatypeOf : String → Option (List String)) (x : String) :
    (_get_datatype_list dsl datatypeOf).Nodup ∧
    (x ∈ _get_datatype_list dsl datatypeOf ↔
      datagroupOf x ≠ "PROC" ∧
        ∃ descr ∈ dsl, x ∈ (datatypeOf (nameOf descr)).getD []) := by
  constructor
  · exact nodup_dtFold datatypeOf dsl [] List.nodup_nil
  · rw [_get_datatype_list, mem_dtFold]
    simp

/-! ### Field merge lemmas -/

theorem optOr_assoc {α : Type} (a b c : Option α) :
    optOr (optOr a b) c = optOr a (optOr b c) := by
  cases a <;> cases b <;> rfl

theorem alGet_add_field (r : RadarObj) (fn : String) (fd : Int) (k : String) :
    alGet (add_field r fn fd).fields k = if fn = k then some fd else alGet r.fields k := by
  unfold add_field
  exact alGet_alUpdate r.fields fn fd k

theorem merged_lookup :
    ∀ (l : List (String × Int)) (r : RadarObj) (n : String),
      alGet (l.foldl (fun acc p => add_field acc p.1 p.2) r).fields n =
        optOr (alGet l.reverse n) (alGet r.fields n) := by
  intro l
  induction l with
  | nil => intro r n; simp [alGet, optOr]
  | cons p t ih =>
    intro r n
    rw [List.foldl_cons, ih]
    have hrev : (p :: t).reverse = t.reverse ++ [p] := by simp
    rw [hrev, alGet_append, optOr_assoc]
    congr 1
    have hp : alGet [p] n = if p.1 = n then some p.2 else none := by
      obtain ⟨k1, v1⟩ := p
      rfl
    rw [hp, alGet_add_field]
    by_cases h : p.1 = n
    · rw [if_pos h, if_pos h]; rfl
    · rw [if_neg h, if_neg h]; rfl

/-- Claim C6: when MAKE_GLOBAL is truthy and a shared radar volume exists,
every field of the transform result is added to the shared volume with
`replace_existing=True` (a field of the result shadows a same-named field
already in the volume); adding two results in visit order makes the
later-visited dataset's value win for a shared field name; and when
MAKE_GLOBAL is falsy or the shared volume is `None`, nothing is added and
the volume is returned untouched. -/
theorem C6_make_global_merge_semantics (r nd1 nd2 : RadarObj) (mg1 mg2 : Val)
    (n : String) (v2 : Int)
    (hmg1 : pyTruthy mg1 = true) (hmg2 : pyTruthy mg2 = true)
    (hn2 : alGet nd2.fields.reverse n = some v2) :
    ((_add_dataset nd1 (some r) mg1).2 = some 0) ∧
    (∀ k, alGet ((_add_dataset nd1 (some r) mg1).1.getD ⟨[]⟩).fields k =
        optOr (alGet nd1.fields.reverse k) (alGet r.fields k)) ∧
    (alGet ((_add_dataset nd2
        (some ((_add_dataset nd1 (some r) mg1).1.getD ⟨[]⟩)) mg2).1.getD ⟨[]⟩).fields n =
      some v2) ∧
    (∀ (nd0 : RadarObj) (rad : Option RadarObj) (mg0 : Val),
        pyTruthy mg0 = false → _add_dataset nd0 rad mg0 = (rad, none)) := by
  have hadd1 : _add_dataset nd1 (some r) mg1 =
      (some (nd1.fields.foldl (fun acc p => add_field acc p.1 p.2) r), some 0) := by
    simp [_add_dataset, hmg1]
  have hadd2 : ∀ rr : RadarObj, _add_dataset nd2 (some rr) mg2 =
      (some (nd2.fields.foldl (fun acc p => add_field acc p.1 p.2) rr), some 0) := by
    intro rr
    simp [_add_dataset, hmg2]
  refine ⟨by rw [hadd1], ?_, ?_, ?_⟩
  · intro k
    rw [hadd1]
    simp only [Option.getD_some]
    exact merged_lookup nd1.fields r k
  · rw [hadd1]
    simp only [Option.getD_some]
    rw [hadd2]
    simp only [Option.getD_some]
    rw [merged_lookup, hn2]
    rfl
  · intro nd0 rad mg0 h0
    cases rad with
    | none => rfl
    | some rr => simp [_add_dataset, h0]

/-- Witness for C6 at concrete values: the shared volume starts with field
`"Z" = 1`, dataset 1 writes `"Z" = 2`, dataset 2 writes `"Z" = 3`; after
both merges the volume holds `3`, and a falsy MAKE_GLOBAL leaves the volume
untouched. -/
theorem C6_make_global_merge_semantics_witness :
    ((_add_dataset ⟨[("Z", 2)]⟩ (some ⟨[("Z", 1)]⟩) (.vint 1)).2 = some 0) ∧
    (alGet ((_add_dataset ⟨[("Z", 3)]⟩
        (some ((_add_dataset ⟨[("Z", 2)]⟩ (some ⟨[("Z", 1)]⟩) (.vint 1)).1.getD ⟨[]⟩))
        (.vint 1)).1.getD ⟨[]⟩).fields "Z" = some 3) ∧
    (_add_dataset ⟨[("Z", 2)]⟩ (some ⟨[("Z", 1)]⟩) (.vint 0) = (some ⟨[("Z", 1)]⟩, none)) := by
  have h := C6_make_global_merge_semantics ⟨[("Z", 1)]⟩ ⟨[("Z", 2)]⟩ ⟨[("Z", 3)]⟩
    (.vint 1) (.vint 1) "Z" 3 rfl rfl rfl
  exact ⟨h.1, h.2.2.1, h.2.2.2 ⟨[("Z", 2)]⟩ (some ⟨[("Z", 1)]⟩) (.vint 0) rfl⟩

/-! ### Run-configuration mutation theorems -/

/-- Claim C9 counterexample: building a dataset configuration mutates the run
configuration in place (in the source `dscfg = cfg[dataset]` aliases the
entry, and every `dscfg.update` writes through it): before the call
`cfg['myds']` has no `'initialized'` key, after the call it does, so the run
configuration dictionary is not left unchanged. -/
theorem C9_counterexample :
    _create_dscfg_dict exCfg "myds" = some (exCfgOut, exDsOut) ∧
    dsLookup exCfg "myds" "initialized" = none ∧
    dsLookup exCfgOut "myds" "initialized" = some (.vint 0) ∧
    exCfgOut ≠ exCfg := by
  refine ⟨rfl, rfl, rfl, ?_⟩
  intro he
  have h1 : dsLookup exCfgOut "myds" "initialized" = some (.vint 0) := rfl
  rw [he] at h1
  have h2 : dsLookup exCfg "myds" "initialized" = none := rfl
  rw [h2] at h1
  exact Option.noConfusion h1

/-- Claim C9 (amended): building a dataset configuration writes the enriched
stage dict back into the run configuration at the dataset's key (the source
mutates `cfg[dataset]` through the `dscfg` alias, adding keys such as
`'initialized'`); every other key of the run configuration is left
unchanged. -/
theorem C9_amended_dscfg_mutates_dataset_entry
    (cfg : Dict) (dataset : String) (cfg2 d : Dict)
    (h : _create_dscfg_dict cfg dataset = some (cfg2, d)) :
    alGet cfg2 dataset = some (.vdict d) ∧
    (∀ k, k ≠ dataset → alGet cfg2 k = alGet cfg k) ∧
    alGet d "initialized" = some (.vint 0) := by
  unfold _create_dscfg_dict at h
  split at h
  case _ d0 cpath sfpath mlh mlv rch rcv agv atv bpath pname hds hc hs h1 h2 h3 h4 h5 h6 h7 h8 =>
    simp only [dscfgBody, Option.some_inj, Prod.mk.injEq] at h
    obtain ⟨hcfg2, hd⟩ := h
    subst hcfg2
    subst hd
    refine ⟨?_, ?_, ?_⟩
    · rw [alGet_alUpdate, if_pos rfl]
    · intro k hk
      rw [alGet_alUpdate, if_neg (fun hx => hk hx.symm)]
    · by_cases hmg : (alGet (alUpdate (alUpdate (alUpdate (alUpdate (alUpdate (alUpdate
        (alUpdate (alUpdate (alUpdate (alUpdate (alUpdate (alUpdate (alUpdate
        (alUpdate d0 "configpath" cpath) "solarfluxpath" sfpath) "mflossh" mlh)
        "mflossv" mlv) "radconsth" rch) "radconstv" rcv) "AntennaGain" agv)
        "attg" atv) "basepath" bpath) "procname" pname) "dsname" (.vstr dataset))
        "timeinfo" .vnone) "initialized" (.vint 0)) "global_data" .vnone)
        "MAKE_GLOBAL").isSome = true
      · rw [if_pos hmg]
        simp [alGet_alUpdate]
      · rw [if_neg hmg]
        simp [alGet_alUpdate]
  case _ => cases h

/-- Witness for the amended C9 at the concrete example configuration. -/
theorem C9_amended_dscfg_mutates_dataset_entry_witness :
    alGet exCfgOut "myds" = some (.vdict exDsOut) ∧
    alGet exCfgOut "configpath" = alGet exCfg "configpath" ∧
    alGet exDsOut "initialized" = some (.vint 0) := by
  have h := C9_amended_dscfg_mutates_dataset_entry exCfg "myds" exCfgOut exDsOut rfl
  exact ⟨h.1, h.2.1 "configpath" (by decide), h.2.2⟩

/-- Claim C10: when the stage dict of a dataset has no MAKE_GLOBAL key, the
dataset configuration builder sets MAKE_GLOBAL to 0, and a MAKE_GLOBAL of 0
is falsy, so `_add_dataset` leaves the shared radar volume untouched and
returns `None`: by default a dataset's output fields are never merged into
the shared volume. -/
theorem C10_make_global_defaults_to_zero
    (cfg : Dict) (dataset : String) (cfg2 d d0 : Dict)
    (h0 : alGet cfg dataset = some (.vdict d0))
    (hmg : alGet d0 "MAKE_GLOBAL" = none)
    (h : _create_dscfg_dict cfg dataset = some (cfg2, d)) :
    alGet d "MAKE_GLOBAL" = some (.vint 0) ∧
    pyTruthy (.vint 0) = false ∧
    (∀ (nd : RadarObj) (rad : Option RadarObj),
        _add_dataset nd rad (.vint 0) = (rad, none)) := by
  unfold _create_dscfg_dict at h
  split at h
  case _ dd cpath sfpath mlh mlv rch rcv agv atv bpath pname hds hc hs h1 h2 h3 h4 h5 h6 h7 h8 =>
    rw [h0] at hds
    have hmgd : alGet dd "MAKE_GLOBAL" = none := by
      rw [(Val.vdict.inj (Option.some.inj hds)).symm]
      exact hmg
    simp only [dscfgBody, Option.some_inj, Prod.mk.injEq] at h
    obtain ⟨hcfg2, hd⟩ := h
    subst hd
    have hnone : (alGet (alUpdate (alUpdate (alUpdate (alUpdate (alUpdate (alUpdate
        (alUpdate (alUpdate (alUpdate (alUpdate (alUpdate (alUpdate (alUpdate
        (alUpdate dd "configpath" cpath) "solarfluxpath" sfpath) "mflossh" mlh)
        "mflossv" mlv) "radconsth" rch) "radconstv" rcv) "AntennaGain" agv)
        "attg" atv) "basepath" bpath) "procname" pname) "dsname" (.vstr dataset))
        "timeinfo" .vnone) "initialized" (.vint 0)) "global_data" .vnone)
        "MAKE_GLOBAL") = none := by
      simp [alGet_alUpdate, hmgd]
    refine ⟨?_, rfl, ?_⟩
    · rw [if_neg (by rw [hnone]; simp)]
      rw [alGet_alUpdate, if_pos rfl]
    · intro nd rad
      cases rad with
      | none => rfl
      | some r => rfl
  case _ => cases h

/-- Witness for C10 at the concrete example configuration (whose stage dict
has no MAKE_GLOBAL key). -/
theorem C10_make_global_defaults_to_zero_witness :
    alGet exDsOut "MAKE_GLOBAL" = some (.vint 0) ∧
    pyTruthy (.vint 0) = false ∧
    _add_dataset ⟨[("Z", 7)]⟩ (some ⟨[("Z", 1)]⟩) (.vint 0) = (some ⟨[("Z", 1)]⟩, none) := by
  have h := C10_make_global_defaults_to_zero exCfg "myds" exCfgOut exDsOut
    [("type", .vstr "RAW")] rfl rfl rfl
  exact ⟨h.1, h.2.1, h.2.2 ⟨[("Z", 7)]⟩ (some ⟨[("Z", 1)]⟩)⟩
